import Mathlib

/-!
Shallow embedding of the ggoled core (SteelSeries GG OLED driver) and proofs
about it.  The definitions mirror the Rust sources:
  * `Bitmap`, `Bitmap.crop`, `Bitmap.blit`      — ggoled_lib/src/bitmap.rs
  * `Device.create_report`, `Device.prepare_for_report`, `Device.parse_event`,
    `Device.set_brightness`, `connectFilter`    — ggoled_lib/src/lib.rs
  * `scrollStep`, `OLED_SHIFTS`, `shiftTick`, layer ids — ggoled_draw/src/lib.rs
Machine integers are modelled as `Nat`/`Int`; `as u8` casts become `% 256`;
fallible operations (asserts, debug-build overflow panics) return `Option`.
-/

namespace Ggoled

/-- 1-bit-per-pixel raster, row-major, from `ggoled_lib/src/bitmap.rs`.
The Rust `BitVec` is modelled as a `List Bool`. -/
structure Bitmap where
  w : Nat
  h : Nat
  data : List Bool
  deriving DecidableEq

namespace Bitmap

/-- Indexing into the bit vector (`self.data[i]`); out-of-range reads are
`false` (the Rust code only indexes in range under the claims' hypotheses). -/
def get (bm : Bitmap) (i : Nat) : Bool := bm.data.getD i false

/-- `Bitmap::new(w, h, on)`: `BitVec::from_elem(w * h, on)`
(`on` is a Lean keyword, so the parameter is named `fill`). -/
def new (w h : Nat) (fill : Bool) : Bitmap :=
  { w := w, h := h, data := List.replicate (w * h) fill }

/-- `Bitmap::crop(x, y, w, h)`.  The two `assert!`s become the `if`-guard
(`none` models the panic).  The loop body is translated verbatim: the Rust
loop variables `x`/`y` shadow the crop-origin parameters, so the index read
is `x + y * self.w` with the *loop* variables. -/
def crop (bm : Bitmap) (x y w h : Nat) : Option Bitmap :=
  if (x ≤ bm.w ∧ y ≤ bm.h) ∧ (w ≤ bm.w - x ∧ h ≤ bm.h - y) then
    some { w := w, h := h,
           data := (List.range h).flatMap (fun y =>
             (List.range w).map (fun x => bm.get (x + y * bm.w))) }
  else
    none

/-- The pixel coordinates enumerated by the nested loops
`for y in 0..h { for x in 0..w { ... } }`, in iteration order
(inner coordinate first in the pair). -/
def pixelPairs (w h : Nat) : List (Nat × Nat) :=
  (List.range h).flatMap (fun y => (List.range w).map (fun x => (x, y)))

/-- One `Bitmap::blit` loop iteration's write for destination index `si`:
`opaque=true` stores the source pixel, `opaque=false` ORs it in. -/
def blitVal (opaq : Bool) (cur ov : Bool) : Bool :=
  if opaq then ov else cur || ov

/-- The nested loops of `Bitmap::blit`, folded over the pixel list.
`d` is the destination bit vector being mutated in place. -/
def blitLoop (other : Bitmap) (x y : Int) (opaq : Bool) (w : Nat) :
    List (Nat × Nat) → List Bool → List Bool
  | [], d => d
  | (sx, sy) :: ps, d =>
      let ox : Int := (sx : Int) - x
      let oy : Int := (sy : Int) - y
      if 0 ≤ ox ∧ ox < (other.w : Int) ∧ 0 ≤ oy ∧ oy < (other.h : Int) then
        let si := sx + sy * w
        let oi := ox.toNat + oy.toNat * other.w
        blitLoop other x y opaq w ps
          (d.set si (blitVal opaq (d.getD si false) (other.get oi)))
      else
        blitLoop other x y opaq w ps d

/-- `Bitmap::blit(other, x, y, opaque)`: bounds are not expanded, pixels of
`self` inside `other`'s rectangle are overwritten (opaque) or OR'd
(transparent). -/
def blit (bm other : Bitmap) (x y : Int) (opaq : Bool) : Bitmap :=
  { bm with data := blitLoop other x y opaq bm.w (pixelPairs bm.w bm.h) bm.data }

end Bitmap

/-- `DeviceEvent` from `ggoled_lib/src/lib.rs`. -/
inductive DeviceEvent where
  | Volume (volume : Nat)
  | Battery (headset charging : Nat)
  | HeadsetConnection (connected : Bool)
  deriving DecidableEq

namespace Device

/-- `Device::parse_event(buf)`: `buf` is the 64-byte status report,
modelled as a `List Nat` of byte values read with `getD`.  `u8`
`saturating_sub` coincides with truncated `Nat` subtraction. -/
def parse_event (buf : List Nat) : Option DeviceEvent :=
  if buf.getD 0 0 ≠ 7 then none
  else
    match buf.getD 1 0 with
    | 0x25 => some (.Volume (0x38 - buf.getD 2 0))
    | 0xb5 => some (.HeadsetConnection (buf.getD 4 0 == 8))
    | 0xb7 => some (.Battery (buf.getD 2 0) (buf.getD 3 0))
    | _ => none

end Device

/-- The fields of a `hidapi` `DeviceInfo` that `Device::connect` inspects. -/
structure DeviceInfo where
  vendor_id : Nat
  product_id : Nat
  interface_number : Nat
  deriving DecidableEq

/-- The enumeration filter of `Device::connect`: SteelSeries vendor id,
Arctis Nova Pro product-id whitelist, interface number 4. -/
def matchesFilter (d : DeviceInfo) : Bool :=
  d.vendor_id == 0x1038 &&
    [0x12cb, 0x12cd, 0x12e0, 0x12e5].contains d.product_id &&
    d.interface_number == 4

/-- The device-count validation of `Device::connect`, over an abstract
enumerated device list.  `ok` carries the filtered list: the code proceeds
to open devices exactly on this branch. -/
def connectFilter (devices : List DeviceInfo) : Except String (List DeviceInfo) :=
  let device_infos := devices.filter matchesFilter
  if device_infos.isEmpty then .error "No matching devices connected"
  else if device_infos.length < 2 then .error "Too few matching devices connected"
  else if device_infos.length > 2 then .error "Too many matching devices connected"
  else .ok device_infos

/-- Point-update of a byte array modelled as `Nat → Nat`
(`report[idx] = val`). -/
def setByte (rep : Nat → Nat) (idx val : Nat) : Nat → Nat :=
  fun b => if b = idx then val else rep b

/-- The 64-byte report built by `Device::set_brightness` on the happy path:
byte 0 the HID report id, byte 1 the brightness command id `0x85`,
byte 2 the value. -/
def brightnessReport (value : Nat) : Nat → Nat :=
  setByte (setByte (setByte (fun _ => 0) 0 0x06) 1 0x85) 2 value

/-- `Device::set_brightness(value)`: validation (`bail!` modelled as
`Except.error`, so no report is produced on error), then a single report
write, modelled by returning the written report. -/
def set_brightness (value : Nat) : Except String (Nat → Nat) :=
  if value < 0x01 then .error "brightness too low"
  else if value > 0x0a then .error "brightness too high"
  else .ok (brightnessReport value)

/-- `ReportDrawable` from `ggoled_lib/src/lib.rs`: one chunk of a bitmap to
be encoded into a single draw report. -/
structure ReportDrawable where
  bitmap : Bitmap
  w : Nat
  h : Nat
  dst_x : Nat
  dst_y : Nat
  src_x : Nat
  src_y : Nat
  deriving DecidableEq

namespace Device

/-- `SCREEN_REPORT_SPLIT_SZ`. -/
def SCREEN_REPORT_SPLIT_SZ : Nat := 64

/-- The column stride of `Device::create_report`:
`(d.dst_y.wrapping_rem(8) + d.h).div_ceil(8) * 8`
(`n.div_ceil 8` is `(n + 7) / 8`). -/
def stride_h (d : ReportDrawable) : Nat :=
  (d.dst_y % 8 + d.h + 7) / 8 * 8

/-- The nested pixel loops of `Device::create_report`, folded over the pixel
list in iteration order: per pixel, `report[ri/8 + 6] |= bit << (ri % 8)`. -/
def reportLoop (d : ReportDrawable) :
    List (Nat × Nat) → (Nat → Nat) → (Nat → Nat)
  | [], rep => rep
  | (x, y) :: ps, rep =>
      let ri := x * stride_h d + y
      let pi := (d.src_y + y) * d.bitmap.w + (d.src_x + x)
      reportLoop d ps
        (setByte rep (ri / 8 + 6)
          (rep (ri / 8 + 6) |||
            ((if d.bitmap.get pi then 1 else 0) <<< (ri % 8))))

/-- `Device::create_report(d)`: a 1024-byte report (modelled as
`Nat → Nat`; the claims' hypotheses keep all written indices below 1024).
Byte 0 is the HID report id, byte 1 the draw command id, bytes 2-5 the
destination rectangle (`as u8` casts become `% 256`), then the bit-packed
column-major pixel data. -/
def create_report (d : ReportDrawable) : Nat → Nat :=
  let report : Nat → Nat := fun _ => 0
  let report := setByte report 0 0x06
  let report := setByte report 1 0x93
  let report := setByte report 2 (d.dst_x % 256)
  let report := setByte report 3 (d.dst_y % 256)
  let report := setByte report 4 (d.w % 256)
  let report := setByte report 5 (d.h % 256)
  reportLoop d (Bitmap.pixelPairs d.w d.h) report

/-- The screen-clipping and splitting stage of `Device::prepare_for_report`
(everything after the negative-offset handling): crop the destination
rectangle to the screen, then split into chunks of at most
`SCREEN_REPORT_SPLIT_SZ` columns. -/
def prepareChunks (width height : Nat) (bitmap : Bitmap)
    (w h x y src_x src_y : Nat) : List ReportDrawable :=
  -- Crop size to screen
  let x := min x width
  let y := min y height
  let w := if width ≤ x + w then width - x else w
  let h := if height ≤ y + h then height - y else h
  -- Split
  let splits := (w + (SCREEN_REPORT_SPLIT_SZ - 1)) / SCREEN_REPORT_SPLIT_SZ
  (List.range splits).map (fun i =>
    { bitmap := bitmap,
      w := min SCREEN_REPORT_SPLIT_SZ (w - i * SCREEN_REPORT_SPLIT_SZ),
      h := h,
      dst_x := x + i * SCREEN_REPORT_SPLIT_SZ,
      dst_y := y,
      src_x := src_x + i * SCREEN_REPORT_SPLIT_SZ,
      src_y := src_y })

/-- `Device::prepare_for_report(bitmap, x, y)` for a device of the given
screen size.  The two `w -= (-x) as usize` / `h -= (-y) as usize`
subtractions are unchecked in Rust and panic in debug builds on underflow;
the panic is modelled as `none`. -/
def prepare_for_report (width height : Nat) (bitmap : Bitmap) (x y : Int) :
    Option (List ReportDrawable) :=
  -- Handle negative x/y by moving src_x/src_y
  match (if x < 0 then
           (if (-x).toNat ≤ bitmap.w then
              some (bitmap.w - (-x).toNat, (0 : Nat), (-x).toNat)
            else none)
         else some (bitmap.w, x.toNat, 0)) with
  | none => none
  | some (w, x, src_x) =>
    match (if y < 0 then
             (if (-y).toNat ≤ bitmap.h then
                some (bitmap.h - (-y).toNat, (0 : Nat), (-y).toNat)
              else none)
           else some (bitmap.h, y.toNat, 0)) with
    | none => none
    | some (h, y, src_y) =>
      some (prepareChunks width height bitmap w h x y src_x src_y)

/-- The clipped destination width that `prepare_for_report` splits into
chunks, for `-bmw ≤ x`: the negative-offset shrink of the bitmap width
(`w -= (-x) as usize`, destination x becoming 0) followed by the clip of
the destination rectangle to the screen (`x = min(x, width)`;
`if x + w >= width { w = width - x }`).  The number of produced chunks is
the ceiling division of this width by `SCREEN_REPORT_SPLIT_SZ`. -/
def clippedWidth (width bmw : Nat) (x : Int) : Nat :=
  let w := if x < 0 then bmw - (-x).toNat else bmw
  let xd := if x < 0 then 0 else min x.toNat width
  if width ≤ xd + w then width - xd else w

end Device

/-- The per-tick scroll update of a `DrawLayer::Scroll` in
`run_draw_device_thread` (`ggoled_draw/src/lib.rs`):
`state.scroll.x -= 1; if state.scroll.x <= -scroll_w { state.scroll.x += scroll_w }`. -/
def scrollStep (scroll_w : Int) (x : Int) : Int :=
  let x := x - 1
  if x ≤ -scroll_w then x + scroll_w else x

/-- `MARGIN` of the Scroll rendering. -/
def SCROLL_MARGIN : Int := 30

/-- `ShiftMode` from `ggoled_draw/src/lib.rs`. -/
inductive ShiftMode where
  | Off
  | Simple
  deriving DecidableEq

/-- `OLED_SHIFTS`: the fixed anti-burn-in offset ring. -/
def OLED_SHIFTS : List (Int × Int) :=
  [(0, 0), (0, -1), (1, -1), (1, 0), (1, 1), (0, 1), (-1, 1), (-1, 0), (-1, -1)]

/-- The per-tick shift handling of `run_draw_device_thread`: given the mode,
the current `oled_shift` index and whether at least `OLED_SHIFT_PERIOD`
(90 s) of wall-clock time has elapsed since `last_shift`, return the new
index and the composite offset used this tick.  Under `Off` the state is
untouched and the offset is (0,0). -/
def shiftTick (mode : ShiftMode) (oled_shift : Nat) (elapsed_ge_period : Bool) :
    Nat × (Int × Int) :=
  match mode with
  | .Off => (oled_shift, (0, 0))
  | .Simple =>
      let oled_shift :=
        if elapsed_ge_period then (oled_shift + 1) % OLED_SHIFTS.length
        else oled_shift
      (oled_shift, OLED_SHIFTS.getD oled_shift (0, 0))

/-- The offsets observed over `n` consecutive ticks in `ShiftMode::Simple`,
each tick with ≥ 90 s elapsed since the previous advance (i.e. sampling the
composite offset every simulated 90 seconds). -/
def simpleTrace (oled_shift : Nat) : Nat → List (Int × Int)
  | 0 => []
  | n + 1 =>
      let t := shiftTick .Simple oled_shift true
      t.2 :: simpleTrace t.1 n

/-- The `DrawDevice` state that layer-id allocation depends on:
`layer_counter` plus the key set of the `layers` `BTreeMap` (modelled as the
list of keys; layer contents are irrelevant to the id claims). -/
structure DrawState where
  layer_counter : Nat
  layers : List Nat
  deriving DecidableEq

/-- `DrawDevice::add_layer_locked`: increment the counter, use it as the new
id, insert into the map, return the id.  (`add_layer` and each line added by
`add_text` call this once per new layer.) -/
def add_layer_locked (st : DrawState) : DrawState × Nat :=
  let counter := st.layer_counter + 1
  ({ layer_counter := counter,
     layers := st.layers.filter (fun k => k ≠ counter) ++ [counter] }, counter)

/-- `DrawDevice::remove_layer`. -/
def remove_layer (st : DrawState) (id : Nat) : DrawState :=
  { st with layers := st.layers.filter (fun k => k ≠ id) }

/-- `DrawDevice::clear_layers`. -/
def clear_layers (st : DrawState) : DrawState :=
  { st with layers := [] }

/-- A producer-side call history against the layer store. -/
inductive LayerOp where
  | add
  | remove (id : Nat)
  | clear
  deriving DecidableEq

/-- Run a history of layer operations from a state, collecting the ids
returned by the `add` calls in order. -/
def runOps (st : DrawState) : List LayerOp → List Nat
  | [] => []
  | .add :: ops =>
      let r := add_layer_locked st
      r.2 :: runOps r.1 ops
  | .remove id :: ops => runOps (remove_layer st id) ops
  | .clear :: ops => runOps (clear_layers st) ops

/-- The initial `DrawDevice` layer state (`layer_counter: 0`, empty map). -/
def initDrawState : DrawState := { layer_counter := 0, layers := [] }

/-! ## Theorems -/

/-- C2: `Bitmap::crop` evaluated at the failing input.  The claim says the
cropped pixel (0,0) of `crop(1, 0, 1, 1)` equals the source pixel (1,0)
(which is on); the code ignores the crop origin because the loop variables
shadow it, and yields the source pixel (0,0) (off) instead. -/
theorem crop_offset_ignored :
    Bitmap.crop ⟨2, 1, [false, true]⟩ 1 0 1 1 = some ⟨1, 1, [false]⟩ ∧
    (Bitmap.get ⟨2, 1, [false, true]⟩ (1 + 0 * 2) = true) := by
  decide

/-- C3: decoding a 64-byte status report: no event unless byte 0 = 7; then
byte 1 = 0x25 gives Volume `0x38 - byte2` (truncated, as `saturating_sub`),
0xb5 gives HeadsetConnection (connected iff byte 4 = 8), 0xb7 gives Battery
(byte 2, byte 3), and any other byte 1 gives no event. -/
theorem parse_event_spec (buf : List Nat) (hlen : buf.length = 64)
    (hbytes : ∀ b ∈ buf, b < 256) :
    (buf.getD 0 0 ≠ 7 → Device.parse_event buf = none) ∧
    (buf.getD 0 0 = 7 →
      (buf.getD 1 0 = 0x25 →
        Device.parse_event buf = some (.Volume (0x38 - buf.getD 2 0))) ∧
      (buf.getD 1 0 = 0xb5 →
        Device.parse_event buf =
          some (.HeadsetConnection (buf.getD 4 0 == 8)) ∧
        ((buf.getD 4 0 == 8) = true ↔ buf.getD 4 0 = 8)) ∧
      (buf.getD 1 0 = 0xb7 →
        Device.parse_event buf =
          some (.Battery (buf.getD 2 0) (buf.getD 3 0))) ∧
      (buf.getD 1 0 ≠ 0x25 → buf.getD 1 0 ≠ 0xb5 → buf.getD 1 0 ≠ 0xb7 →
        Device.parse_event buf = none)) := by
  constructor
  · intro h
    simp only [Device.parse_event]
    rw [if_pos h]
  · intro h0
    have hni : ¬ (buf.getD 0 0 ≠ 7) := fun hh => hh h0
    refine ⟨?_, ?_, ?_, ?_⟩
    · intro h1
      simp only [Device.parse_event]
      rw [if_neg hni, h1]
    · intro h1
      refine ⟨?_, by simp⟩
      simp only [Device.parse_event]
      rw [if_neg hni, h1]
    · intro h1
      simp only [Device.parse_event]
      rw [if_neg hni, h1]
    · intro h25 hb5 hb7
      simp only [Device.parse_event]
      rw [if_neg hni]

/-- C3 witness: a concrete volume report. -/
theorem parse_event_spec_witness :
    Device.parse_event (7 :: 0x25 :: 5 :: List.replicate 61 0) =
      some (.Volume 0x33) :=
  ((parse_event_spec (7 :: 0x25 :: 5 :: List.replicate 61 0)
    (by decide) (by decide)).2 (by decide)).1 (by decide)

/-- C4: `connect()` errors whenever the number of enumerated devices passing
the vendor/product/interface filter is not exactly two (a dedicated error
for zero, "too few" for one, "too many" for three or more), and proceeds to
open devices only on exactly two matches. -/
theorem connect_filter_spec (devices : List DeviceInfo) :
    ((devices.filter matchesFilter).length = 0 →
      connectFilter devices = .error "No matching devices connected") ∧
    ((devices.filter matchesFilter).length = 1 →
      connectFilter devices = .error "Too few matching devices connected") ∧
    (3 ≤ (devices.filter matchesFilter).length →
      connectFilter devices = .error "Too many matching devices connected") ∧
    (∀ r, connectFilter devices = .ok r →
      (devices.filter matchesFilter).length = 2) ∧
    ((devices.filter matchesFilter).length = 2 →
      connectFilter devices = .ok (devices.filter matchesFilter)) := by
  simp only [connectFilter]
  generalize devices.filter matchesFilter = l
  refine ⟨?_, ?_, ?_, ?_, ?_⟩
  · intro h
    have : l = [] := List.length_eq_zero.mp h
    subst this
    rfl
  · intro h
    have : l.isEmpty = false := by
      cases l <;> simp_all
    simp [this, h]
  · intro h
    have h1 : l.isEmpty = false := by
      cases l <;> simp_all
    have h2 : ¬ l.length < 2 := by omega
    have h3 : l.length > 2 := by omega
    simp [h1, h2, h3]
  · intro r h
    by_cases he : l.isEmpty
    · simp [he] at h
    · simp only [he, if_false, Bool.false_eq_true] at h
      split at h
      · cases h
      · split at h
        · cases h
        · omega
  · intro h
    have h1 : l.isEmpty = false := by
      cases l <;> simp_all
    have h2 : ¬ l.length < 2 := by omega
    have h3 : ¬ l.length > 2 := by omega
    simp [h1, h2, h3]

/-- C4 witness: one matching device is "too few". -/
theorem connect_filter_spec_witness :
    connectFilter [⟨0x1038, 0x12cb, 4⟩] =
      .error "Too few matching devices connected" :=
  (connect_filter_spec [⟨0x1038, 0x12cb, 4⟩]).2.1 (by decide)

/-- C8: `set_brightness` rejects every value below 1 ("too low") and above
10 ("too high") without producing a report, and for values in 1..=10 emits
a single report with command byte 0x85 and the value in byte 2; nothing is
clamped. -/
theorem set_brightness_spec (value : Nat) :
    (value < 1 → set_brightness value = .error "brightness too low") ∧
    (10 < value → set_brightness value = .error "brightness too high") ∧
    (1 ≤ value → value ≤ 10 →
      set_brightness value = .ok (brightnessReport value) ∧
      brightnessReport value 0 = 0x06 ∧
      brightnessReport value 1 = 0x85 ∧
      brightnessReport value 2 = value ∧
      ∀ b, 2 < b → brightnessReport value b = 0) := by
  refine ⟨?_, ?_, ?_⟩
  · intro h
    simp only [set_brightness]
    rw [if_pos (by omega)]
  · intro h
    simp only [set_brightness]
    rw [if_neg (by omega), if_pos (by omega)]
  · intro h1 h2
    refine ⟨?_, rfl, rfl, rfl, ?_⟩
    · simp only [set_brightness]
      rw [if_neg (by omega), if_neg (by omega)]
    · intro b hb
      simp only [brightnessReport, setByte]
      rw [if_neg (by omega), if_neg (by omega), if_neg (by omega)]

/-- C8 witness: value 5 is accepted and encoded; value 0 and 11 error. -/
theorem set_brightness_spec_witness :
    set_brightness 5 = .ok (brightnessReport 5) ∧
    brightnessReport 5 2 = 5 ∧
    set_brightness 0 = .error "brightness too low" ∧
    set_brightness 11 = .error "brightness too high" :=
  ⟨((set_brightness_spec 5).2.2 (by decide) (by decide)).1,
   ((set_brightness_spec 5).2.2 (by decide) (by decide)).2.2.2.1,
   (set_brightness_spec 0).1 (by decide),
   (set_brightness_spec 11).2.1 (by decide)⟩

/-- C6: the composite anti-burn-in offset is (0,0) under `ShiftMode::Off`
(with the shift state untouched); under `Simple` the index advances by one
modulo 9 on a tick where ≥ 90 s have elapsed since the last advance (and is
unchanged otherwise), the offset being the `OLED_SHIFTS` entry at the new
index — so it steps through the fixed 9-entry ring in order, wrapping — and
sampling the offset on 9 consecutive 90-second advances visits each of the
9 (pairwise distinct) offsets exactly once. -/
theorem shift_cycle_spec (s : Nat) (hs : s < 9) :
    (∀ t e, (shiftTick .Off t e).1 = t ∧ (shiftTick .Off t e).2 = (0, 0)) ∧
    (shiftTick .Simple s false).1 = s ∧
    (shiftTick .Simple s false).2 = OLED_SHIFTS.getD s (0, 0) ∧
    (shiftTick .Simple s true).1 = (s + 1) % 9 ∧
    (shiftTick .Simple s true).2 = OLED_SHIFTS.getD ((s + 1) % 9) (0, 0) ∧
    (simpleTrace s 9).Perm OLED_SHIFTS ∧
    OLED_SHIFTS.Nodup := by
  refine ⟨fun t e => ⟨rfl, rfl⟩, ?_⟩
  interval_cases s <;> exact (by decide)

/-- C6 witness: the cycle starting at index 0. -/
theorem shift_cycle_spec_witness :
    (shiftTick .Simple 0 true).2 = OLED_SHIFTS.getD 1 (0, 0) ∧
    (simpleTrace 0 9).Perm OLED_SHIFTS :=
  ⟨(shift_cycle_spec 0 (by decide)).2.2.2.2.1,
   (shift_cycle_spec 0 (by decide)).2.2.2.2.2.1⟩

/-- Every id emitted by a history of layer operations exceeds the starting
counter. -/
theorem runOps_gt (ops : List LayerOp) :
    ∀ st : DrawState, ∀ id ∈ runOps st ops, st.layer_counter < id := by
  induction ops with
  | nil => intro st id hid; simp [runOps] at hid
  | cons op ops ih =>
    intro st id hid
    cases op with
    | add =>
      simp only [runOps, add_layer_locked, List.mem_cons] at hid
      rcases hid with h | h
      · omega
      · have := ih _ id h
        simp only [add_layer_locked] at this
        omega
    | remove i =>
      have := ih _ id (by simpa [runOps] using hid)
      simpa [remove_layer] using this
    | clear =>
      have := ih _ id (by simpa [runOps] using hid)
      simpa [clear_layers] using this

/-- The ids emitted by a history of layer operations are strictly
increasing. -/
theorem runOps_pairwise (ops : List LayerOp) :
    ∀ st : DrawState, (runOps st ops).Pairwise (· < ·) := by
  induction ops with
  | nil => intro st; simp [runOps]
  | cons op ops ih =>
    intro st
    cases op with
    | add =>
      simp only [runOps]
      refine List.Pairwise.cons ?_ (ih _)
      intro id hid
      have := runOps_gt ops _ id hid
      simp only [add_layer_locked] at this ⊢
      omega
    | remove i => simpa [runOps] using ih (remove_layer st i)
    | clear => simpa [runOps] using ih (clear_layers st)

/-- C9: layer ids are strictly positive and strictly monotonically
increasing over any history of `add_layer`/`remove_layer`/`clear_layers`
calls against a fresh engine: each `add` (including each id produced by
`add_text`, which performs one `add_layer_locked` per line) returns an id
strictly greater than every id returned before it, id 0 (`LayerId::none`)
is never returned, and no id is ever reused even after removals or
clears. -/
theorem layer_ids_spec (ops : List LayerOp) :
    (runOps initDrawState ops).Pairwise (· < ·) ∧
    ∀ id ∈ runOps initDrawState ops, 0 < id :=
  ⟨runOps_pairwise ops initDrawState,
   fun id h => runOps_gt ops initDrawState id h⟩

/-- C9 witness: a concrete history, with an id looked up in it. -/
theorem layer_ids_spec_witness :
    (runOps initDrawState [.add, .remove 1, .add, .clear, .add]).Pairwise (· < ·) ∧
    0 < 3 :=
  ⟨(layer_ids_spec [.add, .remove 1, .add, .clear, .add]).1,
   (layer_ids_spec [.add, .remove 1, .add, .clear, .add]).2 3 (by decide)⟩

/-- `scrollStep` keeps the offset in the half-open window `(-scroll_w, 0]`. -/
theorem scrollStep_range (sw : Int) (hsw : 0 < sw) (x : Int)
    (hx : -sw < x ∧ x ≤ 0) :
    -sw < scrollStep sw x ∧ scrollStep sw x ≤ 0 := by
  simp only [scrollStep]
  split <;> omega

/-- On the reachable window, `scrollStep` is subtraction by one modulo
`scroll_w`, negated. -/
theorem scrollStep_eq_emod (sw : Int) (hsw : 0 < sw) (x : Int)
    (hx : -sw < x ∧ x ≤ 0) :
    scrollStep sw x = -((-x + 1) % sw) := by
  simp only [scrollStep]
  split
  · have hx1 : x - 1 = -sw := by omega
    have h1 : -x + 1 = sw := by omega
    rw [h1, Int.emod_self]
    omega
  · have h0 : 0 ≤ -x + 1 := by omega
    have h1 : -x + 1 < sw := by omega
    rw [Int.emod_eq_of_lt h0 h1]
    omega

/-- Iterating `scrollStep` from a reachable offset counts ticks modulo
`scroll_w`. -/
theorem scrollStep_iterate (sw : Int) (hsw : 0 < sw) (x : Int)
    (hx : -sw < x ∧ x ≤ 0) (k : Nat) :
    (scrollStep sw)^[k] x = -((-x + k) % sw) := by
  induction k with
  | zero =>
    have : -x % sw = -x := Int.emod_eq_of_lt (by omega) (by omega)
    simp [this]
  | succ k ih =>
    rw [Function.iterate_succ_apply', ih]
    have hm0 : 0 ≤ (-x + k) % sw := Int.emod_nonneg _ (by omega)
    have hm1 : (-x + k) % sw < sw := Int.emod_lt_of_pos _ hsw
    rw [scrollStep_eq_emod sw hsw _ (by constructor <;> omega)]
    have : -(-((-x + ↑k) % sw)) + 1 = (-x + ↑k) % sw + 1 := by ring
    rw [this, Int.emod_add_emod]
    congr 2
    push_cast
    ring

/-- Every offset reachable from the initial scroll state 0 lies in
`(-scroll_w, 0]`. -/
theorem scroll_reachable_range (sw : Int) (hsw : 0 < sw) (n : Nat) :
    -sw < (scrollStep sw)^[n] 0 ∧ (scrollStep sw)^[n] 0 ≤ 0 := by
  induction n with
  | zero => simpa using hsw
  | succ n ih =>
    rw [Function.iterate_succ_apply']
    exact scrollStep_range sw hsw _ ih

/-- C5: for a Scroll layer whose bitmap has width `W` (tile width
`W + 30`, the fixed margin), the per-tick update returns every reachable
offset to itself after exactly `W + 30` ticks, and never sooner. -/
theorem scroll_period_spec (W : Nat) (x : Int)
    (hreach : ∃ n, (scrollStep ((W : Int) + SCROLL_MARGIN))^[n] 0 = x) :
    (scrollStep ((W : Int) + SCROLL_MARGIN))^[W + 30] x = x ∧
    ∀ k : Nat, 0 < k → k < W + 30 →
      (scrollStep ((W : Int) + SCROLL_MARGIN))^[k] x ≠ x := by
  obtain ⟨n, hn⟩ := hreach
  have hsw : (0 : Int) < (W : Int) + SCROLL_MARGIN := by
    simp only [SCROLL_MARGIN]; positivity
  have hx : -((W : Int) + SCROLL_MARGIN) < x ∧ x ≤ 0 := by
    rw [← hn]; exact scroll_reachable_range _ hsw n
  have hxmod : -x % ((W : Int) + SCROLL_MARGIN) = -x :=
    Int.emod_eq_of_lt (by omega) (by omega)
  constructor
  · rw [scrollStep_iterate _ hsw x hx]
    have : -x + ((W : Nat) + 30 : Nat) = -x + ((W : Int) + SCROLL_MARGIN) := by
      simp only [SCROLL_MARGIN]; push_cast; ring
    have h4 : (-x + ((W : Int) + SCROLL_MARGIN)) % ((W : Int) + SCROLL_MARGIN)
        = -x % ((W : Int) + SCROLL_MARGIN) := by
      have h5 := Int.add_mul_emod_self_left (a := -x)
        (b := (W : Int) + SCROLL_MARGIN) (c := 1)
      simpa using h5
    rw [this, h4, hxmod]
    ring
  · intro k hk0 hk1 hiter
    rw [scrollStep_iterate _ hsw x hx] at hiter
    have heq : (-x + k) % ((W : Int) + SCROLL_MARGIN) = -x := by omega
    have hdvd : ((W : Int) + SCROLL_MARGIN) ∣ (k : Int) := by
      have h1 : (-x + k) % ((W : Int) + SCROLL_MARGIN)
          = -x % ((W : Int) + SCROLL_MARGIN) := by rw [heq, hxmod]
      have h2 : ((-x + k) - -x) % ((W : Int) + SCROLL_MARGIN) = 0 :=
        Int.emod_eq_emod_iff_emod_sub_eq_zero.mp h1
      have h3 : (-x + k) - -x = (k : Int) := by ring
      rw [h3] at h2
      exact Int.dvd_of_emod_eq_zero h2
    have := Int.le_of_dvd (by exact_mod_cast hk0) hdvd
    simp only [SCROLL_MARGIN] at this
    omega

/-- C5 witness: `W = 1`, starting offset 0, tile width 31. -/
theorem scroll_period_spec_witness :
    (scrollStep ((1 : Int) + SCROLL_MARGIN))^[31] 0 = 0 ∧
    (scrollStep ((1 : Int) + SCROLL_MARGIN))^[7] 0 ≠ 0 :=
  ⟨(scroll_period_spec 1 0 ⟨0, rfl⟩).1,
   (scroll_period_spec 1 0 ⟨0, rfl⟩).2 7 (by decide) (by decide)⟩

/-- Reading back a just-written list cell. -/
theorem getD_set_self (l : List Bool) (i : Nat) (v : Bool) (h : i < l.length) :
    (l.set i v).getD i false = v := by
  induction l generalizing i with
  | nil => simp at h
  | cons a t ih =>
    cases i with
    | zero => rfl
    | succ i => exact ih i (by simpa using h)

/-- Writing one list cell leaves the others unchanged. -/
theorem getD_set_ne (l : List Bool) (i j : Nat) (v : Bool) (h : j ≠ i) :
    (l.set i v).getD j false = l.getD j false := by
  induction l generalizing i j with
  | nil => simp
  | cons a t ih =>
    cases i with
    | zero =>
      cases j with
      | zero => omega
      | succ j => rfl
    | succ i =>
      cases j with
      | zero => rfl
      | succ j => exact ih i j (by omega)

/-- Writing a cell's own value back is the identity. -/
theorem set_getD_self (l : List Bool) (i : Nat) :
    l.set i (l.getD i false) = l := by
  induction l generalizing i with
  | nil => rfl
  | cons a t ih =>
    cases i with
    | zero => rfl
    | succ i => simpa using ih i

/-- A transparent blit of an all-off bitmap does not change the destination
bit vector at all. -/
theorem blitLoop_all_off (other : Bitmap) (x y : Int) (w : Nat)
    (hoff : ∀ i, other.get i = false) :
    ∀ (ps : List (Nat × Nat)) (d : List Bool),
      Bitmap.blitLoop other x y false w ps d = d := by
  intro ps
  induction ps with
  | nil => intro d; rfl
  | cons p ps ih =>
    intro d
    obtain ⟨sx, sy⟩ := p
    simp only [Bitmap.blitLoop]
    split
    · rw [show Bitmap.blitVal false (d.getD (sx + sy * w) false)
          (other.get (((sx : Int) - x).toNat + ((sy : Int) - y).toNat * other.w))
          = d.getD (sx + sy * w) false by
        simp [Bitmap.blitVal, hoff]]
      rw [set_getD_self, ih]
    · exact ih d

/-- `blitLoop` preserves the bit-vector length. -/
theorem blitLoop_length (other : Bitmap) (x y : Int) (opaq : Bool) (w : Nat) :
    ∀ (ps : List (Nat × Nat)) (d : List Bool),
      (Bitmap.blitLoop other x y opaq w ps d).length = d.length := by
  intro ps
  induction ps with
  | nil => intro d; rfl
  | cons p ps ih =>
    intro d
    obtain ⟨sx, sy⟩ := p
    simp only [Bitmap.blitLoop]
    split
    · rw [ih, List.length_set]
    · exact ih d

/-- A destination index touched by no pixel of the loop list is unchanged
by `blitLoop`. -/
theorem blitLoop_getD_notin (other : Bitmap) (x y : Int) (opaq : Bool)
    (w j : Nat) :
    ∀ (ps : List (Nat × Nat)) (d : List Bool),
      (∀ p ∈ ps, p.1 + p.2 * w ≠ j) →
      (Bitmap.blitLoop other x y opaq w ps d).getD j false = d.getD j false := by
  intro ps
  induction ps with
  | nil => intro d _; rfl
  | cons p ps ih =>
    intro d hps
    obtain ⟨sx, sy⟩ := p
    simp only [Bitmap.blitLoop]
    have hhead : sx + sy * w ≠ j := hps (sx, sy) (List.mem_cons_self _ _)
    split
    · rw [ih _ (fun q hq => hps q (List.mem_cons_of_mem _ hq)),
        getD_set_ne _ _ _ _ (fun hc => hhead hc.symm)]
    · exact ih _ (fun q hq => hps q (List.mem_cons_of_mem _ hq))

/-- The value of a destination index written by exactly one pixel of the
loop list: the overlap test decides whether `blitVal` is applied to the
original value, exactly as in the source loop. -/
theorem blitLoop_getD_in (other : Bitmap) (x y : Int) (opaq : Bool) (w : Nat)
    (sx sy : Nat) :
    ∀ (ps : List (Nat × Nat)) (d : List Bool),
      ps.Pairwise (fun a b => a.1 + a.2 * w ≠ b.1 + b.2 * w) →
      (sx, sy) ∈ ps → sx + sy * w < d.length →
      (Bitmap.blitLoop other x y opaq w ps d).getD (sx + sy * w) false =
        if 0 ≤ (sx : Int) - x ∧ (sx : Int) - x < (other.w : Int) ∧
            0 ≤ (sy : Int) - y ∧ (sy : Int) - y < (other.h : Int) then
          Bitmap.blitVal opaq (d.getD (sx + sy * w) false)
            (other.get (((sx : Int) - x).toNat + ((sy : Int) - y).toNat * other.w))
        else
          d.getD (sx + sy * w) false := by
  intro ps
  induction ps with
  | nil => intro d _ hmem; simp at hmem
  | cons q ps ih =>
    intro d hpw hmem hlen
    obtain ⟨qx, qy⟩ := q
    have hpw' := (List.pairwise_cons.mp hpw).2
    have hhead := (List.pairwise_cons.mp hpw).1
    rcases List.mem_cons.mp hmem with heq | hmem'
    · obtain ⟨rfl, rfl⟩ : sx = qx ∧ sy = qy := by
        have := heq
        simp only [Prod.mk.injEq] at this
        exact this
      have hnot : ∀ p ∈ ps, p.1 + p.2 * w ≠ sx + sy * w := by
        intro p hp
        exact fun hc => (hhead p hp) hc.symm
      simp only [Bitmap.blitLoop]
      split
      · rw [blitLoop_getD_notin _ _ _ _ _ _ _ _ hnot, getD_set_self _ _ _ hlen]
      · rw [blitLoop_getD_notin _ _ _ _ _ _ _ _ hnot]
    · -- (sx, sy) occurs later; the head write (if any) hits another index
      have hne : qx + qy * w ≠ sx + sy * w := hhead (sx, sy) hmem'
      simp only [Bitmap.blitLoop]
      split
      · rw [ih _ hpw' hmem' (by rw [List.length_set]; exact hlen),
          getD_set_ne _ _ _ _ (fun hc => hne hc.symm)]
      · rw [ih _ hpw' hmem' hlen]

/-- Membership in the loop pixel list is exactly being inside the
rectangle. -/
theorem pixelPairs_mem (w h sx sy : Nat) :
    (sx, sy) ∈ Bitmap.pixelPairs w h ↔ sx < w ∧ sy < h := by
  simp only [Bitmap.pixelPairs, List.mem_flatMap, List.mem_map, List.mem_range,
    Prod.mk.injEq]
  constructor
  · rintro ⟨y, hy, x, hx, rfl, rfl⟩
    exact ⟨hx, hy⟩
  · rintro ⟨hx, hy⟩
    exact ⟨sy, hy, sx, hx, rfl, rfl⟩

/-- Mapping each loop pixel to its row-major index enumerates
`0, 1, …, w*h - 1` in order. -/
theorem pixelPairs_map_index (w h : Nat) :
    (Bitmap.pixelPairs w h).map (fun p => p.1 + p.2 * w) = List.range (w * h) := by
  induction h with
  | zero => simp [Bitmap.pixelPairs]
  | succ h ih =>
    have hrange : List.range (h + 1) = List.range h ++ [h] := List.range_succ h
    have hsplit : Bitmap.pixelPairs w (h + 1) =
        Bitmap.pixelPairs w h ++ (List.range w).map (fun x => (x, h)) := by
      simp only [Bitmap.pixelPairs, hrange, List.flatMap_append]
      simp
    rw [hsplit, List.map_append, ih]
    have hadd : List.range (w * (h + 1)) = List.range (w * h) ++
        (List.range w).map (fun a => w * h + a) := by
      rw [Nat.mul_succ, List.range_add]
    rw [hadd, List.map_map]
    congr 1
    apply List.map_congr_left
    intro a _
    simp [Nat.mul_comm]
    omega

/-- Distinct loop pixels hit distinct row-major destination indices. -/
theorem pixelPairs_pairwise (w h : Nat) :
    (Bitmap.pixelPairs w h).Pairwise
      (fun a b => a.1 + a.2 * w ≠ b.1 + b.2 * w) := by
  have hnd : ((Bitmap.pixelPairs w h).map (fun p => p.1 + p.2 * w)).Nodup := by
    rw [pixelPairs_map_index]
    exact List.nodup_range _
  exact (List.pairwise_map.mp hnd)

/-- C7: blitting an all-off source bitmap `Z` into `B` transparently leaves
every pixel of `B` unchanged, while blitting it opaquely clears exactly the
destination pixels inside the overlap rectangle and leaves pixels outside
it unchanged; in both modes `B`'s dimensions are unchanged. -/
theorem blit_all_off_spec (B Z : Bitmap) (x y : Int)
    (hB : B.data.length = B.w * B.h) (hZ : ∀ i, Z.get i = false) :
    ((B.blit Z x y false).w = B.w ∧ (B.blit Z x y false).h = B.h ∧
      ∀ j, (B.blit Z x y false).get j = B.get j) ∧
    ((B.blit Z x y true).w = B.w ∧ (B.blit Z x y true).h = B.h ∧
      ∀ sx sy, sx < B.w → sy < B.h →
        ((0 ≤ (sx : Int) - x ∧ (sx : Int) - x < (Z.w : Int) ∧
            0 ≤ (sy : Int) - y ∧ (sy : Int) - y < (Z.h : Int)) →
          (B.blit Z x y true).get (sx + sy * B.w) = false) ∧
        (¬(0 ≤ (sx : Int) - x ∧ (sx : Int) - x < (Z.w : Int) ∧
            0 ≤ (sy : Int) - y ∧ (sy : Int) - y < (Z.h : Int)) →
          (B.blit Z x y true).get (sx + sy * B.w) =
            B.get (sx + sy * B.w))) := by
  constructor
  · refine ⟨rfl, rfl, ?_⟩
    intro j
    simp only [Bitmap.blit, Bitmap.get]
    rw [blitLoop_all_off Z x y B.w hZ]
  · refine ⟨rfl, rfl, ?_⟩
    intro sx sy hsx hsy
    have hmem : (sx, sy) ∈ Bitmap.pixelPairs B.w B.h :=
      (pixelPairs_mem B.w B.h sx sy).mpr ⟨hsx, hsy⟩
    have hlen : sx + sy * B.w < B.data.length := by
      rw [hB]
      calc sx + sy * B.w < B.w + sy * B.w := by omega
        _ = (sy + 1) * B.w := by ring
        _ ≤ B.h * B.w := Nat.mul_le_mul_right _ (by omega)
        _ = B.w * B.h := Nat.mul_comm _ _
    have hchar := blitLoop_getD_in Z x y true B.w sx sy
      (Bitmap.pixelPairs B.w B.h) B.data (pixelPairs_pairwise B.w B.h)
      hmem hlen
    constructor
    · intro hov
      simp only [Bitmap.blit, Bitmap.get]
      rw [hchar, if_pos hov]
      simp [Bitmap.blitVal, hZ]
    · intro hov
      simp only [Bitmap.blit, Bitmap.get]
      rw [hchar, if_neg hov]

/-- C7 witness: a concrete destination and blank source. -/
theorem blit_all_off_spec_witness :
    (Bitmap.blit ⟨2, 1, [true, false]⟩ ⟨1, 1, [false]⟩ 0 0 false).get 0 =
      Bitmap.get ⟨2, 1, [true, false]⟩ 0 ∧
    (Bitmap.blit ⟨2, 1, [true, false]⟩ ⟨1, 1, [false]⟩ 0 0 true).get (0 + 0 * 2) =
      false :=
  ⟨(blit_all_off_spec ⟨2, 1, [true, false]⟩ ⟨1, 1, [false]⟩ 0 0 (by decide)
      (by intro i; cases i <;> simp [Bitmap.get])).1.2.2 0,
   ((blit_all_off_spec ⟨2, 1, [true, false]⟩ ⟨1, 1, [false]⟩ 0 0 (by decide)
      (by intro i; cases i <;> simp [Bitmap.get])).2.2.2 0 0 (by decide)
      (by decide)).1 (by constructor <;> [decide; constructor <;>
        [decide; constructor <;> decide]])⟩

/-- Bit-level characterisation of the `create_report` pixel loop: a bit of
the accumulated report is set exactly when it was already set or some pixel
of the loop list is on and maps to that (byte, bit) position. -/
theorem reportLoop_testBit (d : ReportDrawable) :
    ∀ (ps : List (Nat × Nat)) (rep : Nat → Nat) (b i : Nat),
    (Device.reportLoop d ps rep b).testBit i =
      ((rep b).testBit i ||
        ps.any (fun p =>
          d.bitmap.get ((d.src_y + p.2) * d.bitmap.w + (d.src_x + p.1)) &&
          (b == (p.1 * Device.stride_h d + p.2) / 8 + 6) &&
          (i == (p.1 * Device.stride_h d + p.2) % 8))) := by
  intro ps
  induction ps with
  | nil => intro rep b i; simp [Device.reportLoop]
  | cons q ps ih =>
    intro rep b i
    obtain ⟨x, y⟩ := q
    simp only [Device.reportLoop]
    rw [ih, List.any_cons]
    by_cases hb : b = (x * Device.stride_h d + y) / 8 + 6
    · subst hb
      rw [show setByte rep ((x * Device.stride_h d + y) / 8 + 6)
          (rep ((x * Device.stride_h d + y) / 8 + 6) |||
            ((if d.bitmap.get ((d.src_y + y) * d.bitmap.w + (d.src_x + x))
              then 1 else 0) <<< ((x * Device.stride_h d + y) % 8)))
          ((x * Device.stride_h d + y) / 8 + 6) =
          rep ((x * Device.stride_h d + y) / 8 + 6) |||
            ((if d.bitmap.get ((d.src_y + y) * d.bitmap.w + (d.src_x + x))
              then 1 else 0) <<< ((x * Device.stride_h d + y) % 8)) by
        simp [setByte]]
      rw [Nat.testBit_or]
      by_cases hpix :
          d.bitmap.get ((d.src_y + y) * d.bitmap.w + (d.src_x + x)) = true
      · rw [if_pos hpix]
        rw [show (1 <<< ((x * Device.stride_h d + y) % 8)) =
            2 ^ ((x * Device.stride_h d + y) % 8) by
          rw [Nat.shiftLeft_eq, Nat.one_mul]]
        rw [Nat.testBit_two_pow]
        by_cases hi : i = (x * Device.stride_h d + y) % 8
        · subst hi
          simp [hpix]
        · have hi' : ¬ ((x * Device.stride_h d + y) % 8 = i) :=
            fun hc => hi hc.symm
          have hbeq : (i == (x * Device.stride_h d + y) % 8) = false := by
            simp [hi]
          simp [hpix, hi', hbeq]
      · have hpix' :
            d.bitmap.get ((d.src_y + y) * d.bitmap.w + (d.src_x + x)) = false :=
          by simpa using hpix
        rw [if_neg hpix]
        simp [hpix', Nat.zero_shiftLeft, Nat.zero_testBit]
    · have hbne : (b == (x * Device.stride_h d + y) / 8 + 6) = false := by
        simp [hb]
      simp only [setByte, if_neg hb, hbne, Bool.and_false, Bool.false_and,
        Bool.false_or]

/-- Bytes of the report that no loop pixel maps to (in particular the six
header bytes) are untouched by the pixel loop. -/
theorem reportLoop_header (d : ReportDrawable) (ps : List (Nat × Nat))
    (rep : Nat → Nat) (b : Nat) (hb : b < 6) :
    Device.reportLoop d ps rep b = rep b := by
  apply Nat.eq_of_testBit_eq
  intro i
  rw [reportLoop_testBit]
  have hany : (ps.any (fun p =>
      d.bitmap.get ((d.src_y + p.2) * d.bitmap.w + (d.src_x + p.1)) &&
      (b == (p.1 * Device.stride_h d + p.2) / 8 + 6) &&
      (i == (p.1 * Device.stride_h d + p.2) % 8))) = false := by
    rw [List.any_eq_false]
    intro p hp
    have : (b == (p.1 * Device.stride_h d + p.2) / 8 + 6) = false := by
      have : b ≠ (p.1 * Device.stride_h d + p.2) / 8 + 6 := by omega
      simp [this]
    simp [this]
  rw [hany, Bool.or_false]

/-- C1: for every chunk within the report limits, the encoded draw report
has byte 0 = 0x06 (HID report id), byte 1 = 0x93 (draw opcode), bytes 2–5 =
destination x, destination y, chunk width, chunk height, and a data bit
(bit `ri % 8` of byte `6 + ri / 8`, where `ri = x * stride + y` and
`stride = ceil((dst_y mod 8 + chunk_h) / 8) * 8`) is set exactly when the
corresponding chunk-local source pixel is on; all other data bits are
zero. -/
theorem create_report_spec (d : ReportDrawable)
    (hw : d.w ≤ 64) (hh : d.h ≤ 64) (hx : d.dst_x < 256) (hy : d.dst_y < 64)
    (hsx : d.src_x + d.w ≤ d.bitmap.w) (hsy : d.src_y + d.h ≤ d.bitmap.h) :
    Device.create_report d 0 = 0x06 ∧
    Device.create_report d 1 = 0x93 ∧
    Device.create_report d 2 = d.dst_x ∧
    Device.create_report d 3 = d.dst_y ∧
    Device.create_report d 4 = d.w ∧
    Device.create_report d 5 = d.h ∧
    (∀ b i : Nat, 6 ≤ b → i < 8 →
      ((Device.create_report d b).testBit i = true ↔
        ∃ x, x < d.w ∧ ∃ y, y < d.h ∧
          d.bitmap.get ((d.src_y + y) * d.bitmap.w + (d.src_x + x)) = true ∧
          b = 6 + (x * Device.stride_h d + y) / 8 ∧
          i = (x * Device.stride_h d + y) % 8)) := by
  have hdr : ∀ b, b < 6 → Device.create_report d b =
      setByte (setByte (setByte (setByte
        (setByte (setByte (fun _ => 0) 0 0x06) 1 0x93)
        2 (d.dst_x % 256)) 3 (d.dst_y % 256)) 4 (d.w % 256)) 5 (d.h % 256) b := by
    intro b hb
    simp only [Device.create_report]
    rw [reportLoop_header d _ _ b hb]
  refine ⟨?_, ?_, ?_, ?_, ?_, ?_, ?_⟩
  · rw [hdr 0 (by omega)]; rfl
  · rw [hdr 1 (by omega)]; rfl
  · rw [hdr 2 (by omega)]
    simp only [setByte]
    norm_num
    omega
  · rw [hdr 3 (by omega)]
    simp only [setByte]
    norm_num
    omega
  · rw [hdr 4 (by omega)]
    simp only [setByte]
    norm_num
    omega
  · rw [hdr 5 (by omega)]
    simp only [setByte]
    norm_num
    omega
  · intro b i hb hi
    simp only [Device.create_report]
    rw [reportLoop_testBit]
    have hbase : ∀ j, (setByte (setByte (setByte
        (setByte (setByte (setByte (fun _ => 0) 0 0x06)
        1 0x93) 2 (d.dst_x % 256)) 3 (d.dst_y % 256)) 4 (d.w % 256))
        5 (d.h % 256) b).testBit j = false := by
      intro j
      simp only [setByte]
      rw [if_neg (by omega), if_neg (by omega), if_neg (by omega),
        if_neg (by omega), if_neg (by omega), if_neg (by omega)]
      exact Nat.zero_testBit j
    rw [hbase, Bool.false_or, List.any_eq_true]
    constructor
    · rintro ⟨p, hp, hcond⟩
      obtain ⟨px, py⟩ := p
      have hmem := (pixelPairs_mem d.w d.h px py).mp hp
      simp only [Bool.and_eq_true, beq_iff_eq] at hcond
      exact ⟨px, hmem.1, py, hmem.2, hcond.1.1, by omega, hcond.2⟩
    · rintro ⟨px, hpx, py, hpy, hpix, hbeq, hieq⟩
      refine ⟨(px, py), (pixelPairs_mem d.w d.h px py).mpr ⟨hpx, hpy⟩, ?_⟩
      simp only [Bool.and_eq_true, beq_iff_eq]
      exact ⟨⟨hpix, by omega⟩, hieq⟩

/-- C1 witness: a 2×2 all-on chunk at destination (3, 5). -/
theorem create_report_spec_witness :
    Device.create_report ⟨⟨2, 2, [true, true, true, true]⟩, 2, 2, 3, 5, 0, 0⟩ 2 = 3 ∧
    ((Device.create_report
        ⟨⟨2, 2, [true, true, true, true]⟩, 2, 2, 3, 5, 0, 0⟩ 6).testBit 5 = true ↔
      ∃ x, x < 2 ∧ ∃ y, y < 2 ∧
        Bitmap.get ⟨2, 2, [true, true, true, true]⟩ ((0 + y) * 2 + (0 + x)) = true ∧
        6 = 6 + (x * Device.stride_h
          ⟨⟨2, 2, [true, true, true, true]⟩, 2, 2, 3, 5, 0, 0⟩ + y) / 8 ∧
        5 = (x * Device.stride_h
          ⟨⟨2, 2, [true, true, true, true]⟩, 2, 2, 3, 5, 0, 0⟩ + y) % 8) :=
  ⟨(create_report_spec ⟨⟨2, 2, [true, true, true, true]⟩, 2, 2, 3, 5, 0, 0⟩
      (by decide) (by decide) (by decide) (by decide) (by decide)
      (by decide)).2.2.1,
   (create_report_spec ⟨⟨2, 2, [true, true, true, true]⟩, 2, 2, 3, 5, 0, 0⟩
      (by decide) (by decide) (by decide) (by decide) (by decide)
      (by decide)).2.2.2.2.2.2 6 5 (by decide) (by decide)⟩

/-- C10 counterexample: a 1×1 bitmap drawn at y = 64 is entirely
off-screen to the bottom of the 128×64 screen, yet `prepare_for_report`
produces one chunk (of height 0, at dst_y = 64) rather than zero chunks:
the split count depends only on the clipped width. -/
theorem prepare_offbottom_counterexample :
    Device.prepare_for_report 128 64 ⟨1, 1, [true]⟩ 0 64 =
      some [⟨⟨1, 1, [true]⟩, 1, 0, 0, 64, 0, 0⟩] ∧
    ([⟨⟨1, 1, [true]⟩, 1, 0, 0, 64, 0, 0⟩] : List ReportDrawable) ≠ [] := by
  constructor
  · rfl
  · decide

/-- Every chunk produced by the clip/split stage lies within the 128×64
screen and within the source bitmap, a clipped destination x of 128 or more
produces zero chunks, a clipped destination y of 64 or more produces
only chunks of height 0, and the number of chunks is the ceiling division
of the screen-clipped width by 64 (independent of the height). -/
theorem prepareChunks_spec (bm : Bitmap) (w1 h1 x1 y1 sx sy : Nat)
    (hw : sx + w1 ≤ bm.w) (hh : sy + h1 ≤ bm.h) :
    (∀ c ∈ Device.prepareChunks 128 64 bm w1 h1 x1 y1 sx sy,
      c.dst_x + c.w ≤ 128 ∧ c.dst_y + c.h ≤ 64 ∧
      c.src_x + c.w ≤ bm.w ∧ c.src_y + c.h ≤ bm.h ∧ c.bitmap = bm) ∧
    (128 ≤ x1 → Device.prepareChunks 128 64 bm w1 h1 x1 y1 sx sy = []) ∧
    (64 ≤ y1 → ∀ c ∈ Device.prepareChunks 128 64 bm w1 h1 x1 y1 sx sy,
      c.h = 0) ∧
    ((Device.prepareChunks 128 64 bm w1 h1 x1 y1 sx sy).length =
      ((if 128 ≤ min x1 128 + w1 then 128 - min x1 128 else w1) + 63) / 64) := by
  refine ⟨?_, ?_, ?_, ?_⟩
  · intro c hc
    simp only [Device.prepareChunks, Device.SCREEN_REPORT_SPLIT_SZ,
      List.mem_map, List.mem_range] at hc
    obtain ⟨i, hi, rfl⟩ := hc
    refine ⟨?_, ?_, ?_, ?_, rfl⟩ <;>
      (dsimp only) <;> (split_ifs at hi ⊢ <;> omega)
  · intro h128
    simp only [Device.prepareChunks, Device.SCREEN_REPORT_SPLIT_SZ]
    have hmin : min x1 128 = 128 := by omega
    rw [hmin, if_pos (by omega)]
    rfl
  · intro h64 c hc
    simp only [Device.prepareChunks, Device.SCREEN_REPORT_SPLIT_SZ,
      List.mem_map, List.mem_range] at hc
    obtain ⟨i, hi, rfl⟩ := hc
    dsimp only
    have hmin : min y1 64 = 64 := by omega
    rw [hmin, if_pos (by omega)]
  · simp only [Device.prepareChunks, Device.SCREEN_REPORT_SPLIT_SZ,
      List.length_map, List.length_range]

/-- C10 (amended): under the precondition `-bitmap.w ≤ x` and
`-bitmap.h ≤ y` the clipping step is total; the number of produced chunks
is ceil(clipped width / 64), where the clipped width (`clippedWidth`) is
the bitmap width after the negative-offset shrink and the screen clip, so
the chunk count depends only on the clipped width; every produced chunk
lies within the 128×64 screen and within the source bitmap; a bitmap
entirely off-screen to the right produces zero chunks, while one entirely
off-screen to the bottom produces ceil(clipped width / 64) chunks of
height 0; and when `x < -bitmap.w` or `y < -bitmap.h` the width/height
shrink is an unchecked `usize` subtraction that underflows (panics in
debug builds, modelled as `none`) instead of drawing nothing. -/
theorem prepare_for_report_spec (bm : Bitmap) (x y : Int) :
    (-(bm.w : Int) ≤ x → -(bm.h : Int) ≤ y →
      ∃ cs, Device.prepare_for_report 128 64 bm x y = some cs ∧
        cs.length = (Device.clippedWidth 128 bm.w x + 63) / 64 ∧
        (∀ c ∈ cs,
          c.dst_x + c.w ≤ 128 ∧ c.dst_y + c.h ≤ 64 ∧
          c.src_x + c.w ≤ bm.w ∧ c.src_y + c.h ≤ bm.h ∧ c.bitmap = bm) ∧
        ((128 : Int) ≤ x → cs = []) ∧
        ((64 : Int) ≤ y → ∀ c ∈ cs, c.h = 0)) ∧
    ((x < -(bm.w : Int) ∨ y < -(bm.h : Int)) →
      Device.prepare_for_report 128 64 bm x y = none) := by
  constructor
  · intro hx hy
    by_cases hx0 : x < 0 <;> by_cases hy0 : y < 0
    · have hxt : (-x).toNat ≤ bm.w := by omega
      have hyt : (-y).toNat ≤ bm.h := by omega
      refine ⟨Device.prepareChunks 128 64 bm (bm.w - (-x).toNat)
        (bm.h - (-y).toNat) 0 0 ((-x).toNat) ((-y).toNat), ?_, ?_, ?_, ?_, ?_⟩
      · simp only [Device.prepare_for_report, if_pos hx0, if_pos hxt,
          if_pos hy0, if_pos hyt]
      · rw [(prepareChunks_spec bm _ _ _ _ _ _ (by omega) (by omega)).2.2.2]
        simp [Device.clippedWidth, hx0]
      · exact (prepareChunks_spec bm _ _ _ _ _ _ (by omega) (by omega)).1
      · intro h128; omega
      · intro h64; omega
    · have hxt : (-x).toNat ≤ bm.w := by omega
      refine ⟨Device.prepareChunks 128 64 bm (bm.w - (-x).toNat)
        bm.h 0 y.toNat ((-x).toNat) 0, ?_, ?_, ?_, ?_, ?_⟩
      · simp only [Device.prepare_for_report, if_pos hx0, if_pos hxt,
          if_neg hy0]
      · rw [(prepareChunks_spec bm _ _ _ _ _ _ (by omega) (by omega)).2.2.2]
        simp [Device.clippedWidth, hx0]
      · exact (prepareChunks_spec bm _ _ _ _ _ _ (by omega) (by omega)).1
      · intro h128; omega
      · intro h64
        exact (prepareChunks_spec bm _ _ _ _ _ _ (by omega) (by omega)).2.2.1
          (by omega)
    · have hyt : (-y).toNat ≤ bm.h := by omega
      refine ⟨Device.prepareChunks 128 64 bm bm.w
        (bm.h - (-y).toNat) x.toNat 0 0 ((-y).toNat), ?_, ?_, ?_, ?_, ?_⟩
      · simp only [Device.prepare_for_report, if_neg hx0, if_pos hy0,
          if_pos hyt]
      · rw [(prepareChunks_spec bm _ _ _ _ _ _ (by omega) (by omega)).2.2.2]
        simp [Device.clippedWidth, hx0]
      · exact (prepareChunks_spec bm _ _ _ _ _ _ (by omega) (by omega)).1
      · intro h128
        exact (prepareChunks_spec bm _ _ _ _ _ _ (by omega) (by omega)).2.1
          (by omega)
      · intro h64; omega
    · refine ⟨Device.prepareChunks 128 64 bm bm.w bm.h x.toNat y.toNat 0 0,
        ?_, ?_, ?_, ?_, ?_⟩
      · simp only [Device.prepare_for_report, if_neg hx0, if_neg hy0]
      · rw [(prepareChunks_spec bm _ _ _ _ _ _ (by omega) (by omega)).2.2.2]
        simp [Device.clippedWidth, hx0]
      · exact (prepareChunks_spec bm _ _ _ _ _ _ (by omega) (by omega)).1
      · intro h128
        exact (prepareChunks_spec bm _ _ _ _ _ _ (by omega) (by omega)).2.1
          (by omega)
      · intro h64
        exact (prepareChunks_spec bm _ _ _ _ _ _ (by omega) (by omega)).2.2.1
          (by omega)
  · intro hneg
    rcases hneg with h | h
    · have hx0 : x < 0 := by omega
      have hxt : ¬ ((-x).toNat ≤ bm.w) := by omega
      simp only [Device.prepare_for_report, if_pos hx0, if_neg hxt]
    · have hy0 : y < 0 := by omega
      have hyt : ¬ ((-y).toNat ≤ bm.h) := by omega
      by_cases hx0 : x < 0
      · by_cases hxt : (-x).toNat ≤ bm.w
        · simp only [Device.prepare_for_report, if_pos hx0, if_pos hxt,
            if_pos hy0, if_neg hyt]
        · simp only [Device.prepare_for_report, if_pos hx0, if_neg hxt]
      · simp only [Device.prepare_for_report, if_neg hx0, if_pos hy0,
          if_neg hyt]

/-- C10 witness: a 1×1 bitmap drawn at x = -2 is fully off-screen to the
left; the width shrink underflows and the preparation is modelled as
`none` (debug-build panic). -/
theorem prepare_for_report_spec_witness :
    Device.prepare_for_report 128 64 ⟨1, 1, [true]⟩ (-2) 0 = none :=
  (prepare_for_report_spec ⟨1, 1, [true]⟩ (-2) 0).2 (Or.inl (by decide))

end Ggoled
